import Mathlib

/-!
Verification of the textile-go thread-synchronization core.

Shallow embedding of the `core` package (src/unnamed/part_001, the current
version of core/core.go) and the wallet identity helpers
(src/unnamed/part_000).  External collaborators (the IPFS object store,
decryption, the sqlite datastore internals, the crypto primitives) are
modelled as explicit oracles / function parameters; the control flow of the
embedded functions follows the Go source line by line.
-/

/-- Go `strings.Split` on a single separator character, over the character
list of a string: `splitChars sep [] = [[]]` matching Go's
`strings.Split("", sep) = [""]`. -/
def splitChars (sep : Char) : List Char → List (List Char)
  | [] => [[]]
  | c :: rest =>
    let r := splitChars sep rest
    if c = sep then [] :: r else (c :: r.headD []) :: r.tail

/-- Go `strings.Split(s, sep)` for a one-character separator. -/
def goSplit (s : String) (sep : Char) : List String :=
  (splitChars sep s.data).map (fun l => ⟨l⟩)

/-- Modelled from the spec: the structured metadata descriptor produced by
`photos.Add` and decoded by `GetMetaData` (package repo/photos is not under
src/); only the fields the core reads (`Name`, `Ext`) are kept. -/
structure Metadata where
  name : String
  ext : String
deriving DecidableEq, Repr

/-- `trepo.PhotoSet` as constructed in core.go (repo package not under src/,
fields taken from the construction sites in AddPhoto and handleHash). -/
structure PhotoSet where
  cid : String
  lastCid : String
  albumID : String
  metaData : Metadata
  caption : String
  isLocal : Bool
deriving DecidableEq, Repr

/-- `trepo.PhotoAlbum` as constructed in RegisterAlbum; the key is kept as
opaque bytes (decryption is abstracted into the fetch oracle). -/
structure PhotoAlbum where
  id : String
  key : List Nat
  mnemonic : String
  name : String
deriving DecidableEq, Repr

/-- `ThreadUpdate` notification payload sent on the data channel. -/
structure ThreadUpdate where
  cid : String
  thread : String
  threadID : String
deriving DecidableEq, Repr

/-- Result of a handler call: `ok` is Go's `nil` error, `fail` an error. -/
inductive HRes where
  | ok : HRes
  | fail : String → HRes
deriving DecidableEq, Repr

/-- `Datastore.Albums().GetAlbum(aid)`: lookup by album id. -/
def getAlbum (albums : List PhotoAlbum) (aid : String) : Option PhotoAlbum :=
  albums.find? (fun a => a.id == aid)

/-- `Datastore.Photos().GetPhoto(cid)`: lookup an indexed record by id. -/
def getPhoto (photos : List PhotoSet) (cid : String) : Option PhotoSet :=
  photos.find? (fun s => s.cid == cid)

/-- Modelled from the spec: `Datastore.Photos().Put` (package repo/db is not
under src/).  Spec section 4.2: the insert is atomic with the existence check
and fails with `AlreadyIndexed` when the content id is already present.
`none` is the AlreadyIndexed failure.  The index list is newest-first. -/
def photosPut (photos : List PhotoSet) (s : PhotoSet) : Option (List PhotoSet) :=
  match getPhoto photos s.cid with
  | some _ => none
  | none => some (s :: photos)

/-- Outcome of the body of one chain-walk hop (everything after the
existence check in handleHash): failure aborts the hop, success carries the
updated index, the notification trace and the decoded back-pointer. -/
inductive HopOut where
  | fail : String → HopOut
  | ok : List PhotoSet → List ThreadUpdate → String → HopOut
deriving DecidableEq, Repr

/-- Oracle for the external IPFS store and codec, one entry per fetch the
walk performs: `pin p` is whether pinning path `p` succeeds, `meta h` is
`GetMetaData(h)`, `last h` is `GetLastHash(h)` and `caption h` is
`GetCaption(h)` (`none` is a fetch/decrypt error). -/
structure FetchEnv where
  pin : String → Bool
  meta : String → Option Metadata
  last : String → Option String
  caption : String → Option String

/-- Body of one hop of `handleHash` (part_001 lines 1572-1634), from after
the `GetPhoto` existence check up to the notification: pin the directory
node and its `thumb`, `meta` and `last` children (each failure aborts), pin
the caption with the error discarded (no observable effect, so it is not
modelled), decode metadata and back-pointer (failure aborts), tolerate a
missing caption as `""`, build the non-local record, insert it, and emit the
non-blocking notification (modelled as appending to the trace). -/
def processHop (env : FetchEnv) (a : PhotoAlbum) (aid hash : String)
    (photos : List PhotoSet) (notifs : List ThreadUpdate) : HopOut :=
  if env.pin hash = false then .fail "pin"
  else if env.pin (hash ++ "/thumb") = false then .fail "pin thumb"
  else if env.pin (hash ++ "/meta") = false then .fail "pin meta"
  else if env.pin (hash ++ "/last") = false then .fail "pin last"
  else
    match env.meta hash with
    | none => .fail "meta"
    | some md =>
      match env.last hash with
      | none => .fail "last"
      | some last =>
        let caption := (env.caption hash).getD ""
        let set : PhotoSet := ⟨hash, last, aid, md, caption, false⟩
        match photosPut photos set with
        | none => .fail "db put"
        | some photos2 => .ok photos2 (notifs ++ [⟨hash, a.name, a.id⟩]) last

/-- Continuation of `handleHash` from the observed result of its
`GetPhoto(hash)` existence check: an already-indexed hash is a success
no-op, otherwise the hop body runs and the walk continues on the decoded
back-pointer through `k`.  Factoring the function at the existence check
lets the same code be run from a stale check result, which is exactly the
interleaving the concurrent dispatch in JoinRoom allows. -/
def afterCheck (env : FetchEnv) (a : PhotoAlbum) (aid hash : String)
    (check : Option PhotoSet) (photos : List PhotoSet) (notifs : List ThreadUpdate)
    (k : String → List PhotoSet → List ThreadUpdate →
      HRes × List PhotoSet × List ThreadUpdate) :
    HRes × List PhotoSet × List ThreadUpdate :=
  match check with
  | some _ => (.ok, photos, notifs)
  | none =>
    match processHop env a aid hash photos notifs with
    | .fail e => (.fail e, photos, notifs)
    | .ok photos2 notifs2 last => k last photos2 notifs2

/-- `handleHash` (part_001 lines 1550-1638): look up the album (error if the
thread is unknown), stop successfully on the genesis (empty) pointer or on
an already-indexed id, otherwise run the hop body and recurse on the decoded
back-pointer.  Go's unbounded recursion is modelled with fuel; fuel 0 stands
for a recursion budget exhaustion and is never reached on finite chains when
the fuel exceeds the chain length. -/
def handleHash (env : FetchEnv) (albums : List PhotoAlbum) :
    Nat → String → String → List PhotoSet → List ThreadUpdate →
    HRes × List PhotoSet × List ThreadUpdate
  | 0, _, _, photos, notifs => (.fail "recursion limit", photos, notifs)
  | fuel + 1, hash, aid, photos, notifs =>
    match getAlbum albums aid with
    | none => (.fail ("could not find album with id: " ++ aid), photos, notifs)
    | some a =>
      if hash = "" then (.ok, photos, notifs)
      else
        afterCheck env a aid hash (getPhoto photos hash) photos notifs
          (fun last photos2 notifs2 => handleHash env albums fuel last aid photos2 notifs2)

/-- A floodsub message as seen by handleRoomUpdate: author peer id and
payload string. -/
structure PubsubMsg where
  fromPeer : String
  msgData : String
deriving DecidableEq, Repr

/-- Relay-framing parse in `handleRoomUpdate` (part_001 lines 1527-1537):
split the payload on ':'; a first component `"relay"` with something after
it means the announcement was relayed (second component is the hash, the
origin label is tagged for logging), otherwise the first component is the
hash.  The Bool is the relayed-origin tag. -/
def parseAnnouncement (data : String) : String × Bool :=
  let tmp := goSplit data ':'
  if tmp.length > 1 ∧ tmp.headD "" = "relay" then (tmp.getD 1 "", true)
  else (tmp.headD "", false)

/-- `handleRoomUpdate` (part_001 lines 1518-1547): drop announcements
authored by the local identity, otherwise parse the relay framing and start
the chain walk at the announced hash. -/
def handleRoomUpdate (env : FetchEnv) (albums : List PhotoAlbum) (fuel : Nat)
    (selfId : String) (msg : PubsubMsg) (aid : String)
    (photos : List PhotoSet) (notifs : List ThreadUpdate) :
    HRes × List PhotoSet × List ThreadUpdate :=
  if msg.fromPeer = selfId then (.ok, photos, notifs)
  else handleHash env albums fuel (parseAnnouncement msg.msgData).1 aid photos notifs

/-- The `GetPhotos("", 1, "album='<id>' and local=1")` query used by
AddPhoto and republishLatestUpdates: the most recent (at most one) locally
authored record of the album; the index list is newest-first. -/
def latestLocal (photos : List PhotoSet) (albumId : String) : List PhotoSet :=
  (photos.filter (fun s => s.albumID == albumId && s.isLocal)).take 1

/-- `republishLatestUpdates` (part_001 lines 1436-1456): iterate over all
albums, and for each publish its latest local update id to the album's
topic.  Faithful to the source: when an album has no local update, the loop
body executes `return`, which exits the whole function, not just that
iteration.  The result is the list of (topic, content id) publishes. -/
def republishLatestUpdates (albums : List PhotoAlbum) (photos : List PhotoSet) :
    List (String × String) :=
  match albums with
  | [] => []
  | a :: rest =>
    match latestLocal photos a.id with
    | [] => []
    | r :: _ => (a.id, r.cid) :: republishLatestUpdates rest photos

/-- Modelled from the spec: the outcome of `photos.Add` (package repo/photos
is not under src/) — encode, encrypt, store and pin the bundle parts,
returning the new content id (the multipart boundary) and the metadata, or
failing. -/
inductive AddOutcome where
  | fail : String → AddOutcome
  | ok : String → Metadata → AddOutcome
deriving DecidableEq, Repr

/-- Result of AddPhoto: the returned content id or the surfaced error. -/
inductive AddRes where
  | ok : String → AddRes
  | fail : String → AddRes
deriving DecidableEq, Repr

/-- `AddPhoto` (part_001 lines 925-1003), from the album lookup on: find the
album by name (error if absent), read the latest local head as the
back-pointer, run the encode/store/pin step (the `addResult` oracle), and
only if it succeeded index the new local record and publish.  The publish
itself is asynchronous and external; the index is the observable state. -/
def AddPhoto (albums : List PhotoAlbum) (photos : List PhotoSet)
    (album caption : String) (addResult : AddOutcome) :
    AddRes × List PhotoSet :=
  match albums.find? (fun a => a.name == album) with
  | none => (.fail ("could not find album: " ++ album), photos)
  | some a =>
    let lc := match latestLocal photos a.id with
      | [] => ""
      | r :: _ => r.cid
    match addResult with
    | .fail e => (.fail e, photos)
    | .ok boundary md =>
      let set : PhotoSet := ⟨boundary, lc, a.id, md, caption, true⟩
      match photosPut photos set with
      | none => (.fail "error indexing photo", photos)
      | some photos2 => (.ok boundary, photos2)

/-- `HashRequest` returned by GetHashRequest (part_001 lines 1069-1077). -/
structure HashRequest where
  token : String
  protocol : String
  host : String
deriving DecidableEq, Repr

/-- Go map read `m[k]`: missing keys yield the zero value `""`.  The map is
a newest-first association list. -/
def lookupPass (m : List (String × String)) (k : String) : String :=
  ((m.find? (fun p => p.1 == k)).map Prod.snd).getD ""

/-- `GetHashRequest` (part_001 lines 1069-1077): generate a token (the
caller of the model supplies the ksuid randomness), record it in HashPasses
under the requested hash, and return the request descriptor. -/
def GetHashRequest (m : List (String × String)) (hash token host : String) :
    List (String × String) × HashRequest :=
  ((hash, token) :: m, ⟨token, "http", host⟩)

/-- Gateway response: 401, the bad-path early return, 400, or content. -/
inductive GatewayResp where
  | unauthorized : GatewayResp
  | badPath : GatewayResp
  | badRequest : GatewayResp
  | content : List Nat → GatewayResp
deriving DecidableEq, Repr

/-- The gateway request handler registered by `registerGatewayHandler`
(part_001 lines 1341-1383): 401 without basic auth; parse the content id as
the path components after the second slash; 401 when the presented password
differs from the current HashPasses entry; otherwise serve the decrypted
bytes (the `getFileResult` oracle, `none` meaning a decrypt/fetch error,
status 400).  The token-invalidation step is commented out in the source, so
no branch modifies the HashPasses map — the returned map is the state after
the request. -/
def gatewayHandler (m : List (String × String)) (urlPath : String)
    (authOk : Bool) (password : String) (getFileResult : Option (List Nat)) :
    GatewayResp × List (String × String) :=
  if authOk = false then (.unauthorized, m)
  else
    let tmp := goSplit urlPath '/'
    if tmp.length < 3 then (.badPath, m)
    else
      let ci := String.intercalate "/" (tmp.drop 2)
      if password ≠ lookupPass m ci then (.unauthorized, m)
      else
        match getFileResult with
        | none => (.badRequest, m)
        | some b => (.content b, m)

/-- The external deterministic crypto primitives used by the identity
derivation, as pure functions (each is a fixed algorithm of its inputs:
bip39 seed expansion, HMAC-SHA256, Ed25519 key generation from reader
bytes, bip39 wordlist encoding, peer id from key). -/
structure CryptoPrims where
  bip39NewSeed : String → String → List Nat
  newMnemonic : List Nat → String
  hmacSHA256 : List Nat → List Nat → List Nat
  genEd25519FromReader : List Nat → List Nat
  idFromPrivateKey : List Nat → String

/-- Byte view of a string constant. -/
def strBytes (s : String) : List Nat := s.data.map Char.toNat

/-- `identityKeyFromSeed` (part_000 lines 68-82): HMAC-SHA256 of the seed
under the fixed domain-separation key "scythian horde", whose digest is the
reader fed to Ed25519 key generation; returns the marshalled private key
bytes. -/
def identityKeyFromSeed (p : CryptoPrims) (seed : List Nat) : List Nat :=
  p.genEd25519FromReader (p.hmacSHA256 (strBytes "scythian horde") seed)

/-- `RegisterAlbum` (part_001 lines 890-921), the identity part: bip39 seed
from the phrase with empty password, key bytes via identityKeyFromSeed, and
the album/thread id derived from the private key.  Returns (key bytes,
thread id). -/
def RegisterAlbum (p : CryptoPrims) (mnemonic : String) : List Nat × String :=
  let kb := identityKeyFromSeed p (p.bip39NewSeed mnemonic "")
  (kb, p.idFromPrivateKey kb)

/-- `CreateAlbum` (part_001 lines 868-888), the identity part: when no
phrase is supplied a fresh mnemonic is generated from the node's entropy
source (the `entropy` argument — the only nondeterministic input of the
pipeline), otherwise the supplied phrase is used unchanged; then
RegisterAlbum derives the identity. -/
def CreateAlbum (p : CryptoPrims) (entropy : List Nat) (mnemonic : String) :
    List Nat × String :=
  let m := if mnemonic = "" then p.newMnemonic entropy else mnemonic
  RegisterAlbum p m

/-- Two chain walks for the same announced hash dispatched concurrently
(JoinRoom spawns one handler goroutine per announcement), at the
interleaving in which both walks execute their `GetPhoto` existence check
against the index before either performs its insert: each walk then runs
its hop body from its (now stale) check result.  Database operations
themselves are atomic; this is a legal serialization of them.  Returns the
first walk's result, the second walk's result, and the final index. -/
def concurrentSameHash (env : FetchEnv) (albums : List PhotoAlbum) (fuel : Nat)
    (hash aid : String) (a : PhotoAlbum) (photos : List PhotoSet) :
    HRes × HRes × List PhotoSet :=
  let check1 := getPhoto photos hash
  let check2 := getPhoto photos hash
  let r1 := afterCheck env a aid hash check1 photos []
    (fun l ps ns => handleHash env albums fuel l aid ps ns)
  let r2 := afterCheck env a aid hash check2 r1.2.1 r1.2.2
    (fun l ps ns => handleHash env albums fuel l aid ps ns)
  (r1.1, r2.1, r2.2.1)

/-- A cons cell with no occurrence of the separator splits as a whole. -/
lemma splitChars_no_sep (sep : Char) (l : List Char) (h : sep ∉ l) :
    splitChars sep l = [l] := by
  induction l with
  | nil => rfl
  | cons c rest ih =>
    have hc : ¬ (c = sep) := by
      intro hcs
      exact h (by simp [hcs])
    have hr : sep ∉ rest := fun hm => h (List.mem_cons_of_mem _ hm)
    simp [splitChars, hc, ih hr]

/-- Splitting a payload that starts with the relay framing prefix yields the
literal `relay` component followed by the split of the rest. -/
lemma splitChars_relay (l : List Char) :
    splitChars ':' ('r' :: 'e' :: 'l' :: 'a' :: 'y' :: ':' :: l) =
      ['r', 'e', 'l', 'a', 'y'] :: splitChars ':' l := by
  simp [splitChars]

/-- A bare colon-free payload parses to itself with the relay tag off. -/
lemma parseAnnouncement_bare (h : String) (hc : ':' ∉ h.data) :
    parseAnnouncement h = (h, false) := by
  have hs : goSplit h ':' = [h] := by
    simp [goSplit, splitChars_no_sep ':' h.data hc]
  simp [parseAnnouncement, hs]

/-- A relay-framed colon-free payload parses to the framed hash with the
relay tag on. -/
lemma parseAnnouncement_relay (h : String) (hc : ':' ∉ h.data) :
    parseAnnouncement ("relay:" ++ h) = (h, true) := by
  have hd : ("relay:" ++ h).data = 'r' :: 'e' :: 'l' :: 'a' :: 'y' :: ':' :: h.data := rfl
  have hs : goSplit ("relay:" ++ h) ':' = ["relay", h] := by
    rw [goSplit, hd, splitChars_relay, splitChars_no_sep ':' h.data hc]
    rfl
  simp [parseAnnouncement, hs]

/-- The hop body on a fresh hash whose pins and decodes succeed produces
exactly the new record (caption defaulted when absent), the notification,
and the decoded back-pointer. -/
lemma processHop_eq (env : FetchEnv) (a : PhotoAlbum) (aid hash : String)
    (photos : List PhotoSet) (notifs : List ThreadUpdate) (md : Metadata) (nx : String)
    (hp1 : env.pin hash = true) (hp2 : env.pin (hash ++ "/thumb") = true)
    (hp3 : env.pin (hash ++ "/meta") = true) (hp4 : env.pin (hash ++ "/last") = true)
    (hmd : env.meta hash = some md) (hlast : env.last hash = some nx)
    (hnew : getPhoto photos hash = none) :
    processHop env a aid hash photos notifs =
      .ok (⟨hash, nx, aid, md, (env.caption hash).getD "", false⟩ :: photos)
        (notifs ++ [⟨hash, a.name, a.id⟩]) nx := by
  simp [processHop, hp1, hp2, hp3, hp4, hmd, hlast, photosPut, hnew]

/-- One successful hop of the walk: on a registered thread, a non-genesis,
not-yet-indexed hash whose pins and decodes succeed, handleHash indexes the
record, emits the notification, and continues the walk on the decoded
back-pointer with one unit of fuel consumed. -/
lemma handleHash_step (env : FetchEnv) (albums : List PhotoAlbum) (a : PhotoAlbum)
    (fuel : Nat) (hash aid : String) (photos : List PhotoSet) (notifs : List ThreadUpdate)
    (md : Metadata) (nx : String)
    (hreg : getAlbum albums aid = some a) (hh : ¬ hash = "")
    (hnew : getPhoto photos hash = none)
    (hp1 : env.pin hash = true) (hp2 : env.pin (hash ++ "/thumb") = true)
    (hp3 : env.pin (hash ++ "/meta") = true) (hp4 : env.pin (hash ++ "/last") = true)
    (hmd : env.meta hash = some md) (hlast : env.last hash = some nx) :
    handleHash env albums (fuel + 1) hash aid photos notifs =
      handleHash env albums fuel nx aid
        (⟨hash, nx, aid, md, (env.caption hash).getD "", false⟩ :: photos)
        (notifs ++ [⟨hash, a.name, a.id⟩]) := by
  simp [handleHash, hreg, hh, afterCheck, hnew,
    processHop_eq env a aid hash photos notifs md nx hp1 hp2 hp3 hp4 hmd hlast hnew]

/-- A successful hop body always produces the index extended by exactly one
record in front. -/
lemma processHop_ok_shape (env : FetchEnv) (a : PhotoAlbum) (aid hash : String)
    (photos : List PhotoSet) (notifs : List ThreadUpdate)
    (p2 : List PhotoSet) (n2 : List ThreadUpdate) (last : String)
    (h : processHop env a aid hash photos notifs = .ok p2 n2 last) :
    ∃ s : PhotoSet, p2 = s :: photos := by
  unfold processHop at h
  split at h
  · cases h
  split at h
  · cases h
  split at h
  · cases h
  split at h
  · cases h
  split at h
  · cases h
  split at h
  · cases h
  dsimp only at h
  split at h
  · cases h
  rename_i photos2 heq
  injection h with h1 h2
  unfold photosPut at heq
  split at heq
  · cases heq
  injection heq with h3
  exact ⟨_, (h3.trans h1).symm⟩

/-- The walk never removes indexed records: the final index is the initial
one with some list of new records prepended. -/
lemma handleHash_grows (env : FetchEnv) (albums : List PhotoAlbum) (fuel : Nat) :
    ∀ (hash aid : String) (photos : List PhotoSet) (notifs : List ThreadUpdate),
      ∃ pre, (handleHash env albums fuel hash aid photos notifs).2.1 = pre ++ photos := by
  induction fuel with
  | zero => intro hash aid photos notifs; exact ⟨[], rfl⟩
  | succ f ih =>
    intro hash aid photos notifs
    simp only [handleHash]
    cases hga : getAlbum albums aid with
    | none => exact ⟨[], rfl⟩
    | some a =>
      by_cases hh : hash = ""
      · simp [hh]
      · simp only [if_neg hh]
        cases hgp : getPhoto photos hash with
        | some s => exact ⟨[], rfl⟩
        | none =>
          simp only [afterCheck]
          cases hph : processHop env a aid hash photos notifs with
          | fail e => exact ⟨[], rfl⟩
          | ok p2 n2 last =>
            obtain ⟨s, hs⟩ := processHop_ok_shape env a aid hash photos notifs p2 n2 last hph
            obtain ⟨pre, hpre⟩ := ih last aid p2 n2
            refine ⟨pre ++ [s], ?_⟩
            rw [hpre, hs]
            simp

/-- An indexed record stays found when further records are prepended. -/
lemma getPhoto_append_isSome (pre photos : List PhotoSet) (c : String)
    (h : (getPhoto photos c).isSome = true) :
    (getPhoto (pre ++ photos) c).isSome = true := by
  induction pre with
  | nil => exact h
  | cons s rest ih =>
    by_cases hs : s.cid == c
    · simp [getPhoto, List.find?_cons_of_pos, hs]
    · simpa [getPhoto, List.find?_cons_of_neg, hs] using ih

/-- A synthetic linked chain for the fetch oracle: consecutive entries are
linked by the decoded back-pointer, the last entry points at the genesis
(empty) pointer, and every entry's pins and metadata decode succeed. -/
def chainOk (env : FetchEnv) : List String → Bool
  | [] => true
  | c :: rest =>
    env.pin c && env.pin (c ++ "/thumb") && env.pin (c ++ "/meta") &&
      env.pin (c ++ "/last") && (env.meta c).isSome &&
      (env.last c == some (rest.headD "")) && chainOk env rest

/-- C2: chain termination and complete backfill — for every finite chain of
linked records whose back-pointers end in the genesis (empty) pointer,
handling an announcement that names only the head id fetches, decrypts and
indexes all N records (the index grows by exactly the chain length and every
chain id is found in it afterwards) and the walk terminates without error,
for any fuel exceeding the chain length. -/
theorem chain_walk_backfills_all (env : FetchEnv) (albums : List PhotoAlbum)
    (a : PhotoAlbum) (aid : String) :
    ∀ (cs : List String) (photos : List PhotoSet) (notifs : List ThreadUpdate) (fuel : Nat),
      getAlbum albums aid = some a →
      chainOk env cs = true →
      cs.Nodup →
      (∀ c ∈ cs, getPhoto photos c = none) →
      (∀ c ∈ cs, ¬ c = "") →
      cs.length + 1 ≤ fuel →
      (handleHash env albums fuel (cs.headD "") aid photos notifs).1 = .ok ∧
      (handleHash env albums fuel (cs.headD "") aid photos notifs).2.1.length
        = cs.length + photos.length ∧
      ∀ c ∈ cs,
        (getPhoto (handleHash env albums fuel (cs.headD "") aid photos notifs).2.1 c).isSome
          = true := by
  intro cs
  induction cs with
  | nil =>
    intro photos notifs fuel hreg _ _ _ _ hfuel
    match fuel, hfuel with
    | f + 1, _ => simp [handleHash, hreg]
  | cons c rest ih =>
    intro photos notifs fuel hreg hchain hnodup hfresh hne hfuel
    match fuel, hfuel with
    | f + 1, hfuel =>
      simp only [chainOk, Bool.and_eq_true, beq_iff_eq] at hchain
      obtain ⟨⟨⟨⟨⟨⟨hp1, hp2⟩, hp3⟩, hp4⟩, hmds⟩, hlast⟩, hrest⟩ := hchain
      obtain ⟨md, hmd⟩ := Option.isSome_iff_exists.mp hmds
      have hcne : ¬ c = "" := hne c (List.mem_cons_self c rest)
      have hcnew : getPhoto photos c = none := hfresh c (List.mem_cons_self c rest)
      have hstep := handleHash_step env albums a f c aid photos notifs md (rest.headD "")
        hreg hcne hcnew hp1 hp2 hp3 hp4 hmd hlast
      rw [List.headD_cons, hstep]
      have hnd := List.nodup_cons.mp hnodup
      have hfresh2 : ∀ x ∈ rest,
          getPhoto (⟨c, rest.headD "", aid, md, (env.caption c).getD "", false⟩ :: photos) x
            = none := by
        intro x hx
        have hxc : ¬ x = c := fun hxx => hnd.1 (hxx ▸ hx)
        rw [getPhoto, List.find?_cons_of_neg, ← getPhoto]
        · exact hfresh x (List.mem_cons_of_mem _ hx)
        · simp only [beq_iff_eq]
          exact fun hcx => hxc hcx.symm
      have hne2 : ∀ x ∈ rest, ¬ x = "" := fun x hx => hne x (List.mem_cons_of_mem _ hx)
      have hfuel2 : rest.length + 1 ≤ f := by
        simp only [List.length_cons] at hfuel
        omega
      have ih2 := ih (⟨c, rest.headD "", aid, md, (env.caption c).getD "", false⟩ :: photos)
        (notifs ++ [⟨c, a.name, a.id⟩]) f hreg hrest hnd.2 hfresh2 hne2 hfuel2
      refine ⟨ih2.1, ?_, ?_⟩
      · rw [ih2.2.1]
        simp
        omega
      · intro x hx
        rcases List.mem_cons.mp hx with hxc | hxr
        · subst hxc
          obtain ⟨pre, hpre⟩ := handleHash_grows env albums f (rest.headD "") aid
            (⟨x, rest.headD "", aid, md, (env.caption x).getD "", false⟩ :: photos)
            (notifs ++ [⟨x, a.name, a.id⟩])
          rw [hpre]
          apply getPhoto_append_isSome
          rw [getPhoto, List.find?_cons_of_pos]
          · rfl
          · simp
        · exact ih2.2.2 x hxr

/-- Concrete album for the chain-backfill witness. -/
def albumW2 : PhotoAlbum := ⟨"album1", [], "", "default"⟩

/-- Concrete metadata for witnesses. -/
def mdW : Metadata := ⟨"photo", ".jpg"⟩

/-- Concrete two-record linked chain QmA -> QmB -> genesis. -/
def envW2 : FetchEnv :=
  ⟨fun _ => true,
   fun h => if h = "QmA" ∨ h = "QmB" then some mdW else none,
   fun h => if h = "QmA" then some "QmB" else if h = "QmB" then some "" else none,
   fun _ => none⟩

/-- C2 witness: the two-record chain announced by its head QmA is fully
indexed and the walk returns success. -/
theorem chain_walk_backfills_all_witness :
    (chainOk envW2 ["QmA", "QmB"] = true) ∧
    (handleHash envW2 [albumW2] 3 "QmA" "album1" [] []).1 = .ok ∧
    (handleHash envW2 [albumW2] 3 "QmA" "album1" [] []).2.1.length = 2 ∧
    ∀ c ∈ ["QmA", "QmB"],
      (getPhoto (handleHash envW2 [albumW2] 3 "QmA" "album1" [] []).2.1 c).isSome = true := by
  have h := chain_walk_backfills_all envW2 [albumW2] albumW2 "album1" ["QmA", "QmB"] [] [] 3
    (by decide) (by decide) (by decide) (by decide) (by decide) (by decide)
  exact ⟨by decide, h.1, h.2.1, h.2.2⟩

/-- C10: the album registry lookup precedes the genesis check — for every
hash, the empty genesis pointer included, the chain-walk handler fails when
the thread id is unknown to the registry, leaving the index and the
notification trace untouched; the empty content id is a success only for a
registered thread. -/
theorem unknown_thread_rejected_before_genesis (env : FetchEnv)
    (albums : List PhotoAlbum) (fuel : Nat) (hash aid : String)
    (photos : List PhotoSet) (notifs : List ThreadUpdate)
    (hmiss : getAlbum albums aid = none) :
    handleHash env albums (fuel + 1) hash aid photos notifs
      = (.fail ("could not find album with id: " ++ aid), photos, notifs) ∧
    ∀ (albums2 : List PhotoAlbum) (a : PhotoAlbum), getAlbum albums2 aid = some a →
      handleHash env albums2 (fuel + 1) "" aid photos notifs = (.ok, photos, notifs) := by
  constructor
  · simp [handleHash, hmiss]
  · intro albums2 a hreg
    simp [handleHash, hreg]

/-- Fetch oracle that fails every lookup, for the registry-check witness. -/
def envW10 : FetchEnv := ⟨fun _ => false, fun _ => none, fun _ => none, fun _ => none⟩

/-- Concrete registered album for the registry-check witness. -/
def albumW10 : PhotoAlbum := ⟨"known", [], "", "default"⟩

/-- C10 witness: with an empty registry even the genesis pointer is an
error, and with the thread registered the genesis pointer is a success. -/
theorem unknown_thread_rejected_before_genesis_witness :
    handleHash envW10 [] 1 "" "album1" [] []
      = (.fail ("could not find album with id: " ++ "album1"), [], []) ∧
    handleHash envW10 [albumW10] 1 "" "known" [] [] = (.ok, [], []) := by
  have h := unknown_thread_rejected_before_genesis envW10 [] 0 "" "album1" [] [] (by decide)
  have h2 := unknown_thread_rejected_before_genesis envW10 [] 0 "" "known" [] [] (by decide)
  exact ⟨h.1, h2.2 [albumW10] albumW10 (by decide)⟩

/-- C6: self-suppression — an announcement whose author peer id equals the
local identity is discarded: the handler returns success and neither the
index nor the notification trace changes, whatever the payload. -/
theorem self_announcement_discarded (env : FetchEnv) (albums : List PhotoAlbum)
    (fuel : Nat) (selfId : String) (msg : PubsubMsg) (aid : String)
    (photos : List PhotoSet) (notifs : List ThreadUpdate)
    (hself : msg.fromPeer = selfId) :
    handleRoomUpdate env albums fuel selfId msg aid photos notifs = (.ok, photos, notifs) := by
  simp [handleRoomUpdate, hself]

/-- C6 witness: a concrete self-authored announcement is a success no-op. -/
theorem self_announcement_discarded_witness :
    handleRoomUpdate envW10 [] 0 "peerSelf" ⟨"peerSelf", "QmZ"⟩ "album1" [] []
      = (.ok, [], []) :=
  self_announcement_discarded envW10 [] 0 "peerSelf" ⟨"peerSelf", "QmZ"⟩ "album1" [] [] rfl

/-- C7: relay framing equivalence — for every colon-free content id, an
announcement carrying `relay:` followed by the id is handled exactly as the
bare id (same result, same index, same notifications); the parses differ
only in the relayed-origin tag used for the log label. -/
theorem relay_framing_equivalent (env : FetchEnv) (albums : List PhotoAlbum)
    (fuel : Nat) (selfId peerId aid : String)
    (photos : List PhotoSet) (notifs : List ThreadUpdate) (h : String)
    (hc : ':' ∉ h.data) :
    handleRoomUpdate env albums fuel selfId ⟨peerId, "relay:" ++ h⟩ aid photos notifs
      = handleRoomUpdate env albums fuel selfId ⟨peerId, h⟩ aid photos notifs ∧
    (parseAnnouncement ("relay:" ++ h)).2 = true ∧
    (parseAnnouncement h).2 = false := by
  refine ⟨?_, ?_, ?_⟩
  · simp only [handleRoomUpdate, parseAnnouncement_relay h hc, parseAnnouncement_bare h hc]
  · rw [parseAnnouncement_relay h hc]
  · rw [parseAnnouncement_bare h hc]

/-- Concrete single-record fetch oracle for the relay-framing witness. -/
def envW7 : FetchEnv :=
  ⟨fun _ => true,
   fun h => if h = "QmR" then some mdW else none,
   fun h => if h = "QmR" then some "" else none,
   fun _ => none⟩

/-- Concrete album for the relay-framing witness. -/
def albumW7 : PhotoAlbum := ⟨"album7", [], "", "seven"⟩

/-- C7 witness: the relay-framed and bare announcements of QmR from a
non-self peer are handled identically on a concrete node state. -/
theorem relay_framing_equivalent_witness :
    handleRoomUpdate envW7 [albumW7] 2 "self" ⟨"other", "relay:" ++ "QmR"⟩ "album7" [] []
      = handleRoomUpdate envW7 [albumW7] 2 "self" ⟨"other", "QmR"⟩ "album7" [] [] ∧
    (parseAnnouncement ("relay:" ++ "QmR")).2 = true ∧
    (parseAnnouncement "QmR").2 = false :=
  relay_framing_equivalent envW7 [albumW7] 2 "self" "other" "album7" [] [] "QmR" (by decide)

/-- C8: caption failure is non-fatal — on a hop whose pins, metadata and
back-pointer decodes succeed but whose caption fetch fails, the record is
still indexed with an empty caption, the notification is emitted, and the
walk continues on the back-pointer; whereas a metadata decode failure or a
back-pointer decode failure aborts the hop with an error and no state
change. -/
theorem caption_failure_tolerated (env : FetchEnv) (albums : List PhotoAlbum)
    (a : PhotoAlbum) (fuel : Nat) (c aid : String)
    (photos : List PhotoSet) (notifs : List ThreadUpdate) (md : Metadata) (nx : String)
    (hreg : getAlbum albums aid = some a) (hc : ¬ c = "")
    (hnew : getPhoto photos c = none)
    (hp1 : env.pin c = true) (hp2 : env.pin (c ++ "/thumb") = true)
    (hp3 : env.pin (c ++ "/meta") = true) (hp4 : env.pin (c ++ "/last") = true)
    (hmd : env.meta c = some md) (hlast : env.last c = some nx)
    (hcap : env.caption c = none) :
    handleHash env albums (fuel + 1) c aid photos notifs
      = handleHash env albums fuel nx aid (⟨c, nx, aid, md, "", false⟩ :: photos)
          (notifs ++ [⟨c, a.name, a.id⟩]) ∧
    (∀ env2 : FetchEnv, env2.pin c = true → env2.pin (c ++ "/thumb") = true →
      env2.pin (c ++ "/meta") = true → env2.pin (c ++ "/last") = true →
      env2.meta c = none →
      handleHash env2 albums (fuel + 1) c aid photos notifs
        = (.fail "meta", photos, notifs)) ∧
    (∀ env3 : FetchEnv, env3.pin c = true → env3.pin (c ++ "/thumb") = true →
      env3.pin (c ++ "/meta") = true → env3.pin (c ++ "/last") = true →
      env3.meta c = some md → env3.last c = none →
      handleHash env3 albums (fuel + 1) c aid photos notifs
        = (.fail "last", photos, notifs)) := by
  refine ⟨?_, ?_, ?_⟩
  · have h := handleHash_step env albums a fuel c aid photos notifs md nx
      hreg hc hnew hp1 hp2 hp3 hp4 hmd hlast
    rw [hcap] at h
    exact h
  · intro env2 g1 g2 g3 g4 gmd
    simp [handleHash, hreg, hc, afterCheck, hnew, processHop, g1, g2, g3, g4, gmd]
  · intro env3 g1 g2 g3 g4 gmd glast
    simp [handleHash, hreg, hc, afterCheck, hnew, processHop, g1, g2, g3, g4, gmd, glast]

/-- Concrete album for the caption-failure witness. -/
def albumW8 : PhotoAlbum := ⟨"album8", [], "", "eight"⟩

/-- Single record whose caption fetch fails but whose other parts decode. -/
def envW8 : FetchEnv :=
  ⟨fun _ => true,
   fun h => if h = "QmC" then some mdW else none,
   fun h => if h = "QmC" then some "" else none,
   fun _ => none⟩

/-- Same record with the metadata decode failing. -/
def envW8m : FetchEnv :=
  ⟨fun _ => true, fun _ => none, fun h => if h = "QmC" then some "" else none, fun _ => none⟩

/-- C8 witness: the caption-less hop on QmC is indexed with an empty caption
and the walk proceeds to the genesis pointer, while the same hop with a
failing metadata decode aborts unchanged. -/
theorem caption_failure_tolerated_witness :
    handleHash envW8 [albumW8] 2 "QmC" "album8" [] []
      = handleHash envW8 [albumW8] 1 "" "album8" [⟨"QmC", "", "album8", mdW, "", false⟩]
          [⟨"QmC", "eight", "album8"⟩] ∧
    handleHash envW8m [albumW8] 2 "QmC" "album8" [] [] = (.fail "meta", [], []) := by
  have h := caption_failure_tolerated envW8 [albumW8] albumW8 1 "QmC" "album8" [] [] mdW ""
    (by decide) (by decide) (by decide) (by decide) (by decide) (by decide) (by decide)
    (by decide) (by decide) (by decide)
  exact ⟨h.1, h.2.1 envW8m (by decide) (by decide) (by decide) (by decide) (by decide)⟩

/-- C9: local publish is atomic with respect to the index — when the
encode/store/pin step (photos.Add) fails, AddPhoto returns that error and
the photo index is unchanged; and the index can only change when the store
step returned success, so a record is written only after the bundle parts
are stored. -/
theorem addphoto_failure_leaves_index_unchanged (albums : List PhotoAlbum)
    (photos : List PhotoSet) (album caption e : String) (a : PhotoAlbum)
    (ha : albums.find? (fun x => x.name == album) = some a) :
    AddPhoto albums photos album caption (.fail e) = (.fail e, photos) ∧
    ∀ res : AddOutcome, (AddPhoto albums photos album caption res).2 ≠ photos →
      ∃ b md, res = .ok b md := by
  constructor
  · simp [AddPhoto, ha]
  · intro res hres
    cases res with
    | fail e2 => simp [AddPhoto, ha] at hres
    | ok b md => exact ⟨b, md, rfl⟩

/-- Concrete album for the AddPhoto witness. -/
def albumW9 : PhotoAlbum := ⟨"album9", [], "", "nine"⟩

/-- C9 witness: a failing store step surfaces its error and leaves a
concrete one-record index unchanged. -/
theorem addphoto_failure_leaves_index_unchanged_witness :
    AddPhoto [albumW9] [⟨"QmOld", "", "album9", mdW, "", true⟩] "nine" "cap" (.fail "add failed")
      = (.fail "add failed", [⟨"QmOld", "", "album9", mdW, "", true⟩]) ∧
    ∀ res : AddOutcome,
      (AddPhoto [albumW9] [⟨"QmOld", "", "album9", mdW, "", true⟩] "nine" "cap" res).2
        ≠ [⟨"QmOld", "", "album9", mdW, "", true⟩] →
      ∃ b md, res = .ok b md :=
  addphoto_failure_leaves_index_unchanged [albumW9] [⟨"QmOld", "", "album9", mdW, "", true⟩]
    "nine" "cap" "add failed" albumW9 (by decide)

/-- C3: identity derivation is deterministic — with the crypto primitives
taken as the pure functions they are, deriving from a given mnemonic phrase
ignores the node's entropy source entirely: two runs under arbitrary,
possibly different, entropy streams produce the same private key bytes and
the same thread id, both equal to the pure RegisterAlbum pipeline of the
phrase (bip39 seed, HMAC-SHA256 under the fixed domain key, Ed25519 keygen
from the digest, peer id). -/
theorem identity_derivation_deterministic (p : CryptoPrims) (e1 e2 : List Nat)
    (m : String) (hm : ¬ m = "") :
    CreateAlbum p e1 m = CreateAlbum p e2 m ∧
    (CreateAlbum p e1 m).1 = (RegisterAlbum p m).1 ∧
    (CreateAlbum p e1 m).2 = (RegisterAlbum p m).2 := by
  simp [CreateAlbum, hm]

/-- Concrete stand-in primitives for the determinism witness (each a pure
function, as the real algorithms are). -/
def primsW : CryptoPrims :=
  ⟨fun m pw => strBytes (m ++ pw),
   fun e => String.intercalate " " (e.map (fun n => toString n)),
   fun k s => k ++ s,
   fun r => r.map (fun n => n + 1),
   fun kb => toString kb.length⟩

/-- C3 witness: two derivations of the same concrete phrase under two
different entropy streams agree and match the pure pipeline. -/
theorem identity_derivation_deterministic_witness :
    CreateAlbum primsW [1, 2, 3] "correct horse battery staple"
        = CreateAlbum primsW [9, 9] "correct horse battery staple" ∧
    (CreateAlbum primsW [1, 2, 3] "correct horse battery staple").1
        = (RegisterAlbum primsW "correct horse battery staple").1 ∧
    (CreateAlbum primsW [1, 2, 3] "correct horse battery staple").2
        = (RegisterAlbum primsW "correct horse battery staple").2 :=
  identity_derivation_deterministic primsW [1, 2, 3] [9, 9]
    "correct horse battery staple" (by decide)

/-- Single-record fetch oracle for the concurrency race evaluation. -/
def envW1 : FetchEnv :=
  ⟨fun _ => true,
   fun h => if h = "Qm1" then some mdW else none,
   fun h => if h = "Qm1" then some "" else none,
   fun _ => none⟩

/-- Registered album for the concurrency race evaluation. -/
def albumW1 : PhotoAlbum := ⟨"album1", [], "", "default"⟩

/-- C1: evaluation of the chain walk at the racing schedule — two walks for
the same announced content id Qm1, both executing the read `GetPhoto`
existence check before either insert (a legal serialization of the
datastore operations, since each announcement is dispatched to its own
handler goroutine).  Exactly one record ends up indexed, but the losing
walk's separate insert fails with the AlreadyIndexed conflict, which
handleHash surfaces as an error instead of the success the claim requires:
the existence check and the insert are a read-then-write, not an atomic
check-and-insert. -/
theorem concurrent_walk_loser_surfaces_error :
    concurrentSameHash envW1 [albumW1] 2 "Qm1" "album1" albumW1 []
      = (.ok, .fail "db put", [⟨"Qm1", "", "album1", mdW, "", false⟩]) ∧
    HRes.fail "db put" ≠ HRes.ok := by
  constructor
  · decide
  · decide

/-- Album with no local update, first in GetAlbums order for the republish
evaluation. -/
def albumW4a : PhotoAlbum := ⟨"A", [], "", "first"⟩

/-- Album whose local head should be republished. -/
def albumW4b : PhotoAlbum := ⟨"B", [], "", "second"⟩

/-- The locally authored head of album B. -/
def setW4 : PhotoSet := ⟨"QmB", "", "B", mdW, "", true⟩

/-- C4: evaluation of the republish routine at a registry where the first
album has no local update and the second has a local head — the loop's
early `return` aborts the whole pass, so nothing at all is published even
though album B has a latest local update QmB that the claim requires to be
announced on B's topic. -/
theorem republish_skips_thread_with_local_head :
    republishLatestUpdates [albumW4a, albumW4b] [setW4] = [] ∧
    latestLocal [setW4] "B" = [setW4] ∧
    republishLatestUpdates [albumW4b] [setW4] = [("B", "QmB")] := by
  refine ⟨?_, ?_, ?_⟩
  · decide
  · decide
  · decide

/-- The HashPasses map after issuing token tok1 for content id Qm1/photo. -/
def passesW5 : List (String × String) :=
  (GetHashRequest [] "Qm1/photo" "tok1" "127.0.0.1:9192").1

/-- C5: evaluation of the gateway handler — a request presenting the current
token for Qm1/photo is served, the HashPasses state is unchanged (the
invalidation is commented out in the source), and replaying the very same
token against the post-request state is served again instead of being
rejected as unauthorized. -/
theorem gateway_token_reusable_after_use :
    gatewayHandler passesW5 "/ipfs/Qm1/photo" true "tok1" (some [7, 7])
      = (.content [7, 7], passesW5) ∧
    (gatewayHandler (gatewayHandler passesW5 "/ipfs/Qm1/photo" true "tok1" (some [7, 7])).2
        "/ipfs/Qm1/photo" true "tok1" (some [7, 7])).1 = .content [7, 7] ∧
    GatewayResp.content [7, 7] ≠ GatewayResp.unauthorized := by
  refine ⟨?_, ?_, ?_⟩
  · decide
  · decide
  · decide
